import Mathlib

/-!
Shallow embedding of the write-ahead log implemented in
`src/wal-rust/src/constants.rs` and `src/wal-rust/src/wal_basic.rs`.

Modelling conventions:

* The log file is modelled as a list of newline-terminated lines
  (`RawLine`); writing a line with `writeln!` appends one element.
  serde_json's string syntax layer is abstracted at its interface: a line
  that is syntactically valid JSON is `RawLine.json j` carrying the parsed
  value, a non-empty line that is not valid JSON (such as the literal text
  `invalid entry` written by `test_corrupted_log_entry`) is
  `RawLine.garbage`, and a whitespace-only line is `RawLine.blank`.
  The typed (de)serialization derived from the `LogEntry` struct is
  modelled faithfully by `LogEntry.toJson` / `LogEntry.ofJson` below.
* JSON numbers are modelled as rationals (`Rat`); `f64` timestamps are
  treated as exact numeric values supplied by a clock oracle (`now`
  argument), since no claim depends on floating-point rounding.
* `sequence_counter : u64` is modelled as `Nat`: in a debug build the
  increment `self.sequence_counter += 1` panics at `u64::MAX` instead of
  wrapping, so no successful append ever observes wrap-around and the
  unbounded model agrees with the code on every execution that can
  complete.
* Fallible I/O (serialize, open, write, sync) is driven by an explicit
  fault-injection argument (`Fault`); `none` means every step succeeds,
  exactly as in the straight-line Rust code.
-/

/-- JSON values (`serde_json::Value`), with numbers as exact rationals. -/
inductive Json where
  | null : Json
  | bool (b : Bool) : Json
  | num (q : Rat) : Json
  | str (s : String) : Json
  | arr (elems : List Json) : Json
  | obj (fields : List (String × Json)) : Json

/-- The closed operation enumeration from `constants.rs`. -/
inductive OperationType where
  | INSERT : OperationType
  | UPDATE : OperationType
  | DELETE : OperationType
deriving DecidableEq

/-- One durable record, the `LogEntry` struct from `constants.rs`. -/
structure LogEntry where
  sequence_number : Nat
  transaction_id : String
  operation_type : OperationType
  key : String
  old_value : Option Json
  new_value : Option Json
  timestamp : Rat

/-- Construction of a `LogEntry` (`LogEntry::new`); the wall-clock reading
`SystemTime::now()` is passed in as the oracle argument `now`. -/
def LogEntry.new (sequence_number : Nat) (transaction_id : String)
    (operation_type : OperationType) (key : String)
    (old_value : Option Json) (new_value : Option Json) (now : Rat) : LogEntry :=
  { sequence_number, transaction_id, operation_type, key,
    old_value, new_value, timestamp := now }

/-- Serde serialization of a unit enum variant: the variant name string. -/
def OperationType.toJson : OperationType → Json
  | .INSERT => .str "INSERT"
  | .UPDATE => .str "UPDATE"
  | .DELETE => .str "DELETE"

/-- Serde serialization of an `Option<Value>` field: `None` becomes JSON
null; `Some(v)` serializes as `v` itself (so `Some(Null)` also becomes
null — the encoding cannot distinguish the two). -/
def optValueToJson : Option Json → Json
  | none => .null
  | some v => v

/-- Serde serialization of `LogEntry` (`serde_json::to_string`), as the
JSON object written on one line of the log file. -/
def LogEntry.toJson (e : LogEntry) : Json :=
  .obj [("sequence_number", .num (e.sequence_number : Rat)),
        ("transaction_id", .str e.transaction_id),
        ("operation_type", e.operation_type.toJson),
        ("key", .str e.key),
        ("old_value", optValueToJson e.old_value),
        ("new_value", optValueToJson e.new_value),
        ("timestamp", .num e.timestamp)]

/-- Serde deserialization of a unit enum variant from its name string. -/
def OperationType.ofJson : Json → Option OperationType
  | .str "INSERT" => some .INSERT
  | .str "UPDATE" => some .UPDATE
  | .str "DELETE" => some .DELETE
  | _ => none

/-- Decoding a `u64` field: the JSON number must be a non-negative
integer.  (Serde additionally rejects values above `u64::MAX`, which the
encoder can never produce; the bound is immaterial to every claim and is
omitted.) -/
def asNat : Json → Option Nat
  | .num q => if q.den = 1 ∧ 0 ≤ q.num then some q.num.toNat else none
  | _ => none

/-- Decoding a string field. -/
def asStr : Json → Option String
  | .str s => some s
  | _ => none

/-- Decoding an `f64` field: any JSON number. -/
def asRat : Json → Option Rat
  | .num q => some q
  | _ => none

/-- Serde deserialization of an `Option<Value>` field from its looked-up
JSON value: an absent field and a null field both decode to `None`
(serde's `missing_field` helper succeeds for `Option` fields, and
`Option::deserialize` maps null to `None`); any other value `v` decodes
to `Some(v)`. -/
def optField : Option Json → Option Json
  | some .null => none
  | some v => some v
  | none => none

/-- Serde deserialization of `LogEntry` (`serde_json::from_str` after the
syntax layer): the value must be an object providing the five required
fields with the right shapes; `old_value` / `new_value` follow `Option`
field rules (`optField`).  Unknown extra fields are ignored, as serde does
without `deny_unknown_fields`. -/
def LogEntry.ofJson : Json → Option LogEntry
  | .obj fields =>
    match List.lookup "sequence_number" fields, List.lookup "transaction_id" fields,
          List.lookup "operation_type" fields, List.lookup "key" fields,
          List.lookup "timestamp" fields with
    | some snJ, some txnJ, some opJ, some keyJ, some tsJ =>
      match asNat snJ, asStr txnJ, OperationType.ofJson opJ, asStr keyJ, asRat tsJ with
      | some sn, some txn, some op, some key, some ts =>
        some { sequence_number := sn, transaction_id := txn, operation_type := op,
               key := key, old_value := optField (List.lookup "old_value" fields),
               new_value := optField (List.lookup "new_value" fields), timestamp := ts }
      | _, _, _, _, _ => none
    | _, _, _, _, _ => none
  | _ => none

/-- One newline-terminated line of the log file, with serde_json's
syntax layer abstracted at its interface: `json j` is a line whose
trimmed text parses as the JSON value `j`; `garbage` is a non-empty line
that is not syntactically valid JSON (the carried string records the
text, e.g. `invalid entry`); `blank` is a whitespace-only line. -/
inductive RawLine where
  | json (j : Json) : RawLine
  | garbage (text : String) : RawLine
  | blank : RawLine

/-- The entry a line contributes during replay: blank lines are skipped
before parsing, garbage lines fail the parse, JSON lines go through the
typed decoder. -/
def lineEntry : RawLine → Option LogEntry
  | .json j => LogEntry.ofJson j
  | .garbage _ => none
  | .blank => none

/-- The replay loop body of `read_log_entries`: for each line, a decoded
entry is pushed and a decode failure only prints a diagnostic and
continues. -/
def scanLines : List RawLine → List LogEntry
  | [] => []
  | l :: ls =>
    match lineEntry l with
    | some e => e :: scanLines ls
    | none => scanLines ls

/-- Replay (`read_log_entries`): a missing file (`disk = none`) yields an
empty list, not an error; otherwise every line is scanned and per-record
decode failures are absorbed.  The `Except` layer records that the only
error exits in the source are structural I/O failures (open / read),
which are not fault-injected here since no claim concerns them: with the
file contents available the source always returns `Ok`. -/
def read_log_entries (disk : Option (List RawLine)) : Except String (List LogEntry) :=
  match disk with
  | none => .ok []
  | some lines => .ok (scanLines lines)

/-- State of one `WriteAheadLog` instance together with the contents of
the file at its `log_file_path`: `disk = none` means the file does not
exist. -/
structure WalState where
  sequence_counter : Nat
  disk : Option (List RawLine)

/-- Construction (`WriteAheadLog::new`): `ensure_log_file_exists` creates
an empty file when the path is absent, and the sequence counter is set to
0 unconditionally — it is NOT reconstructed from the file contents. -/
def WalState.new (disk : Option (List RawLine)) : WalState :=
  { sequence_counter := 0, disk := some (disk.getD []) }

/-- The caller-supplied arguments of one `write_log_entry` call. -/
structure AppendArgs where
  transaction_id : String
  operation_type : OperationType
  key : String
  old_value : Option Json
  new_value : Option Json

/-- What a failed `writeln!` left on disk.  `writeln!` writes the JSON
text and the newline as separate `write_all` calls, so the failed write
can have written `nothing`; or a strictly partial `fragment` of the JSON
text, which lacks the object's closing brace, is not valid JSON, and is
modelled as a `garbage` line; or — when every content byte was written
and only the newline write failed — the complete `record`, which the
reader's `lines()` still yields as an unterminated final line and replay
decodes as a valid entry. -/
inductive WriteLeft where
  | nothing : WriteLeft
  | fragment : WriteLeft
  | record : WriteLeft

/-- Injected failure point for one `write_log_entry` call, mirroring the
four fallible steps of the source in their source order; a write failure
carries what it left on disk (`WriteLeft`).  (A line left without its
trailing newline would be concatenated onto by a later write in the
source; that concatenation is not modelled, and no theorem below asserts
anything about appends performed after a failed write.) -/
inductive Fault where
  | serFail : Fault
  | openFail : Fault
  | writeFail (left : WriteLeft) : Fault
  | syncFail : Fault

/-- Append (`write_log_entry`): the counter is incremented first, the
entry is built with the new counter value and the clock reading, then the
four fallible steps run in order; on any failure the error propagates
with `?` but the incremented counter is never rolled back.  On success
the file (created by `open` with `create(true)` if absent) gains exactly
one line holding the serialized entry, and the new counter value is
returned. -/
def write_log_entry (s : WalState) (a : AppendArgs) (now : Rat)
    (fault : Option Fault) : Except String Nat × WalState :=
  let counter := s.sequence_counter + 1
  let entry := LogEntry.new counter a.transaction_id a.operation_type a.key
      a.old_value a.new_value now
  match fault with
  | some .serFail =>
    (.error "Failed to serialize log entry", { s with sequence_counter := counter })
  | some .openFail =>
    (.error "Failed to open log file", { s with sequence_counter := counter })
  | some (.writeFail left) =>
    let lines := s.disk.getD []
    let lines :=
      match left with
      | .nothing => lines
      | .fragment => lines ++ [.garbage "torn record fragment"]
      | .record => lines ++ [.json entry.toJson]
    (.error "Failed to write log entry to file",
     { sequence_counter := counter, disk := some lines })
  | some .syncFail =>
    (.error "Failed to sync log file",
     { sequence_counter := counter,
       disk := some (s.disk.getD [] ++ [.json entry.toJson]) })
  | none =>
    (.ok counter,
     { sequence_counter := counter,
       disk := some (s.disk.getD [] ++ [.json entry.toJson]) })

/-- One append request of a trace: the caller arguments, the clock
reading the call would observe, and the injected fault (none = the call
succeeds). -/
structure AppendReq where
  args : AppendArgs
  now : Rat
  fault : Option Fault

/-- Running a trace of append calls on one instance, collecting each
call's result. -/
def runAppends : WalState → List AppendReq → List (Except String Nat) × WalState
  | s, [] => ([], s)
  | s, r :: rs =>
    let p := write_log_entry s r.args r.now r.fault
    let q := runAppends p.2 rs
    (p.1 :: q.1, q.2)

/-! Helper definitions describing the outcome of a fault-free trace. -/

/-- The encoding/decoding round trip collapses a top-level `Some(null)`
payload to `None` (see `optValueToJson` / `optField`); `normEntry` is the
entry as it comes back from replay. -/
def normEntry (e : LogEntry) : LogEntry :=
  { e with old_value := optField e.old_value, new_value := optField e.new_value }

/-- The entry that the call `write_log_entry s a now` constructs when the
counter held `c` before the call. -/
def entryOf (c : Nat) (r : AppendReq) : LogEntry :=
  LogEntry.new (c + 1) r.args.transaction_id r.args.operation_type r.args.key
    r.args.old_value r.args.new_value r.now

/-- The lines a fault-free trace appends to the file, starting from
counter value `c`. -/
def expectedLines (c : Nat) : List AppendReq → List RawLine
  | [] => []
  | r :: rs => .json (entryOf c r).toJson :: expectedLines (c + 1) rs

/-- The entries a replay recovers from a fault-free trace, starting from
counter value `c`. -/
def expectedEntries (c : Nat) : List AppendReq → List LogEntry
  | [] => []
  | r :: rs => normEntry (entryOf c r) :: expectedEntries (c + 1) rs

/-- The results a fault-free trace returns, starting from counter `c`. -/
def okResults (c : Nat) : List AppendReq → List (Except String Nat)
  | [] => []
  | _ :: rs => .ok (c + 1) :: okResults (c + 1) rs

/-- Relation between one replayed entry and the append call that produced
it: the caller-visible fields come back exactly, except that `old_value` /
`new_value` pass through `optField` (a top-level `Some(null)` payload is
recovered as `None`). -/
def fieldsMatch (e : LogEntry) (r : AppendReq) : Prop :=
  e.transaction_id = r.args.transaction_id ∧
  e.operation_type = r.args.operation_type ∧
  e.key = r.args.key ∧
  e.old_value = optField r.args.old_value ∧
  e.new_value = optField r.args.new_value

/-- A log file interspersing well-formed entry records with malformed or
blank lines: `Interspersed lines es` holds when `es` lists, in on-disk
order, exactly the entries of the lines that decode, the remaining lines
decoding to nothing. -/
inductive Interspersed : List RawLine → List LogEntry → Prop where
  | nil : Interspersed [] []
  | good {l : RawLine} {ls : List RawLine} {e : LogEntry} {es : List LogEntry} :
      lineEntry l = some e → Interspersed ls es → Interspersed (l :: ls) (e :: es)
  | bad {l : RawLine} {ls : List RawLine} {es : List LogEntry} :
      lineEntry l = none → Interspersed ls es → Interspersed (l :: ls) es

/-- The on-disk record shape promised in §6 of the spec: a JSON object
with exactly the seven `LogEntry` fields, `sequence_number` a
non-negative integer, string `transaction_id` and `key`, the
`operation_type` one of the three literal strings, arbitrary (possibly
null) `old_value` / `new_value`, and a numeric `timestamp`. -/
def recordWellFormed : Json → Bool
  | .obj [("sequence_number", .num sn), ("transaction_id", .str _),
          ("operation_type", .str op), ("key", .str _),
          ("old_value", _), ("new_value", _), ("timestamp", .num _)] =>
    (sn.den == 1) && decide (0 ≤ sn.num) &&
      ((op == "INSERT") || (op == "UPDATE") || (op == "DELETE"))
  | _ => false

/-! Interleaving model of the unsynchronized concurrent append.

`test_concurrent_writes` shares one `WriteAheadLog` across threads through
`Arc::as_ptr` cast to `*mut` and calls `write_log_entry` through the
aliased pointer without any lock, so `self.sequence_counter += 1` is an
unsynchronized non-atomic read-modify-write racing with the other
threads.  The model below splits each thread's call into its three
interleavable machine steps: load the counter, store the incremented
value back, then append the record built from the loaded value and return
its sequence number. -/

/-- One racing thread of `test_concurrent_writes`: `pc` is its position
in the append body (0 = about to load the counter, 1 = about to store the
incremented value, 2 = about to append and return, 3 = done), `reg` the
counter value it loaded, `ret` the sequence number its call returned. -/
structure RaceThread where
  pc : Nat
  reg : Nat
  ret : Option Nat

/-- Shared state of the two-thread race: the aliased `sequence_counter`,
the sequence numbers of the records appended to the file so far (in
on-disk order), and both threads. -/
structure RaceState where
  sequence_counter : Nat
  fileSeqs : List Nat
  thread0 : RaceThread
  thread1 : RaceThread

/-- One machine step of a thread's unsynchronized `write_log_entry` body:
given the shared counter and file, produce the new counter, new file and
new thread state. -/
def RaceThread.step (c : Nat) (file : List Nat) (t : RaceThread) :
    Nat × List Nat × RaceThread :=
  match t.pc with
  | 0 => (c, file, { t with pc := 1, reg := c })
  | 1 => (t.reg + 1, file, { t with pc := 2 })
  | 2 => (c, file ++ [t.reg + 1], { t with pc := 3, ret := some (t.reg + 1) })
  | _ => (c, file, t)

/-- Run one step of the chosen thread (`false` = thread 0). -/
def raceStep (which : Bool) (s : RaceState) : RaceState :=
  if which then
    let p := RaceThread.step s.sequence_counter s.fileSeqs s.thread1
    { s with sequence_counter := p.1, fileSeqs := p.2.1, thread1 := p.2.2 }
  else
    let p := RaceThread.step s.sequence_counter s.fileSeqs s.thread0
    { s with sequence_counter := p.1, fileSeqs := p.2.1, thread0 := p.2.2 }

/-- Run a whole interleaving (list of scheduler choices). -/
def runSchedule : List Bool → RaceState → RaceState
  | [], s => s
  | w :: ws, s => runSchedule ws (raceStep w s)

/-- Both threads at the start of their call, fresh log. -/
def raceInit : RaceState :=
  { sequence_counter := 0, fileSeqs := [],
    thread0 := ⟨0, 0, none⟩, thread1 := ⟨0, 0, none⟩ }

/-! Helper lemmas. -/

theorem asNat_natCast (n : Nat) : asNat (.num (n : Rat)) = some n := by
  simp [asNat, Rat.den_natCast, Rat.num_natCast, Int.natCast_nonneg]

theorem opJson_roundTrip (op : OperationType) :
    OperationType.ofJson op.toJson = some op := by
  cases op <;> rfl

theorem optField_optValueToJson (o : Option Json) :
    optField (some (optValueToJson o)) = optField o := by
  cases o <;> rfl

theorem ofJson_toJson (e : LogEntry) :
    LogEntry.ofJson e.toJson = some (normEntry e) := by
  obtain ⟨sn, txn, op, key, ov, nv, ts⟩ := e
  simp [LogEntry.toJson, LogEntry.ofJson, List.lookup, asNat_natCast, asStr, asRat,
    opJson_roundTrip, optField_optValueToJson, normEntry]

theorem scanLines_append (a b : List RawLine) :
    scanLines (a ++ b) = scanLines a ++ scanLines b := by
  induction a with
  | nil => rfl
  | cons l ls ih =>
    simp only [List.cons_append, scanLines]
    cases lineEntry l <;> simp [ih]

theorem scanLines_expectedLines (reqs : List AppendReq) :
    ∀ c, scanLines (expectedLines c reqs) = expectedEntries c reqs := by
  induction reqs with
  | nil => intro c; rfl
  | cons r rs ih =>
    intro c
    simp [expectedLines, expectedEntries, scanLines, lineEntry, ofJson_toJson, ih]

theorem runAppends_noFault (reqs : List AppendReq) :
    ∀ (c : Nat) (d : List RawLine), (∀ r ∈ reqs, r.fault = none) →
      runAppends ⟨c, some d⟩ reqs =
        (okResults c reqs,
         ⟨c + reqs.length, some (d ++ expectedLines c reqs)⟩) := by
  induction reqs with
  | nil => intro c d _; simp [runAppends, okResults, expectedLines]
  | cons r rs ih =>
    intro c d h
    have hr : r.fault = none := h r (by simp)
    have hrs : ∀ x ∈ rs, x.fault = none := fun x hx => h x (by simp [hx])
    simp only [runAppends, hr, write_log_entry, Option.getD_some]
    rw [ih (c + 1) _ hrs]
    simp only [okResults, expectedLines, entryOf, LogEntry.new, Prod.mk.injEq,
      WalState.mk.injEq, List.cons_append, List.nil_append, List.append_assoc,
      List.length_cons, Option.some.injEq]
    exact ⟨trivial, by omega, trivial⟩

theorem okResults_range' (reqs : List AppendReq) :
    ∀ c, okResults c reqs = (List.range' (c + 1) reqs.length).map Except.ok := by
  induction reqs with
  | nil => intro c; rfl
  | cons r rs ih =>
    intro c
    simp [okResults, List.range', ih, Nat.add_assoc]

theorem expectedEntries_forall₂ (reqs : List AppendReq) :
    ∀ c, List.Forall₂ fieldsMatch (expectedEntries c reqs) reqs := by
  induction reqs with
  | nil => intro c; exact .nil
  | cons r rs ih =>
    intro c
    refine .cons ?_ (ih (c + 1))
    exact ⟨rfl, rfl, rfl, rfl, rfl⟩

theorem expectedEntries_mem_key (reqs : List AppendReq) :
    ∀ c e, e ∈ expectedEntries c reqs → ∃ r ∈ reqs, e.key = r.args.key := by
  induction reqs with
  | nil => intro c e h; simp [expectedEntries] at h
  | cons r rs ih =>
    intro c e h
    simp only [expectedEntries, List.mem_cons] at h
    rcases h with rfl | h
    · exact ⟨r, by simp, rfl⟩
    · obtain ⟨r₂, hr₂, hkey⟩ := ih (c + 1) e h
      exact ⟨r₂, by simp [hr₂], hkey⟩

/-! Claim theorems. -/

/-- C1 (counterexample): on a fresh log, a successful append, then an
append failing at serialization, then a successful append return the
sequence numbers 1 and 3 from the two successful calls — not the
contiguous range 1, 2 the claim demands, because the failed call consumed
number 2. -/
theorem C1_counterexample :
    (runAppends (WalState.new none)
        [⟨⟨"t1", .INSERT, "k1", none, none⟩, 1, none⟩,
         ⟨⟨"t2", .INSERT, "k2", none, none⟩, 2, some .serFail⟩,
         ⟨⟨"t3", .INSERT, "k3", none, none⟩, 3, none⟩]).1.filterMap Except.toOption
      = [1, 3] ∧ [1, 3] ≠ List.range' 1 2 := by
  exact ⟨rfl, by decide⟩

/-- C1 (amended): for every sequence of append calls with no failing
calls interleaved on a freshly created log, the returned sequence numbers
are exactly 1, 2, …, N — a strictly increasing contiguous range starting
at 1. -/
theorem C1_theorem (reqs : List AppendReq) (h : ∀ r ∈ reqs, r.fault = none) :
    (runAppends (WalState.new none) reqs).1
      = (List.range' 1 reqs.length).map Except.ok := by
  show (runAppends ⟨0, some []⟩ reqs).1 = _
  rw [runAppends_noFault reqs 0 [] h]
  exact okResults_range' reqs 0

/-- C1 (witness): two fault-free appends on a fresh log return exactly
the sequence numbers 1 and 2. -/
theorem C1_witness :
    (runAppends (WalState.new none)
        [⟨⟨"txn1", .INSERT, "key1", none, none⟩, 1, none⟩,
         ⟨⟨"txn1", .UPDATE, "key1", none, none⟩, 2, none⟩]).1
      = (List.range' 1 2).map Except.ok := by
  refine C1_theorem _ ?_
  intro r hr
  simp only [List.mem_cons] at hr
  rcases hr with rfl | rfl | h
  · rfl
  · rfl
  · cases h

/-- C2 (code evaluation at the failing input): reopening a log file that
already holds an entry with sequence number 1 and appending succeeds but
returns sequence number 1 again — `WriteAheadLog::new` reset the counter
to 0 instead of scanning the file, so the assigned number collides with a
persisted one instead of exceeding all of them. -/
theorem C2_theorem :
    (write_log_entry
        (WalState.new (some [.json ((LogEntry.new 1 "t1" .INSERT "k1" none none 5).toJson)]))
        ⟨"t2", .INSERT, "k2", none, none⟩ 9 none).1 = .ok 1 ∧
      1 ∈ (scanLines [.json ((LogEntry.new 1 "t1" .INSERT "k1" none none 5).toJson)]).map
          LogEntry.sequence_number := by
  constructor
  · rfl
  · simp [scanLines, lineEntry, ofJson_toJson, normEntry, LogEntry.new]

/-- C6: replay on a path that does not exist returns the empty list of
entries, not an error. -/
theorem C6_theorem : read_log_entries none = .ok ([] : List LogEntry) := rfl

/-- C10: an append that fails at any of the four fallible steps
(serialization, open, write, sync) keeps the incremented counter, so the
consumed sequence number is never returned again: after a successful
append returning `c + 1`, a failed one, and another successful one, the
last returns `c + 3` — two greater than the previous success — and the
failed call left the counter at `c + 2`. -/
theorem C10_theorem (s : WalState) (a₁ a₂ a₃ : AppendArgs)
    (t₁ t₂ t₃ : Rat) (f : Fault) :
    (write_log_entry s a₁ t₁ none).1 = .ok (s.sequence_counter + 1) ∧
    (write_log_entry (write_log_entry s a₁ t₁ none).2 a₂ t₂ (some f)).1.toOption = none ∧
    (write_log_entry (write_log_entry s a₁ t₁ none).2 a₂ t₂ (some f)).2.sequence_counter
      = s.sequence_counter + 2 ∧
    (write_log_entry
        (write_log_entry (write_log_entry s a₁ t₁ none).2 a₂ t₂ (some f)).2
        a₃ t₃ none).1 = .ok (s.sequence_counter + 3) := by
  cases f <;> exact ⟨rfl, rfl, rfl, rfl⟩

/-- C3 (counterexample): a single successful append whose `new_value`
argument is `Some(JSON null)` is replayed with `new_value = None` — the
encoding writes `Some(null)` and `None` both as JSON null, so the
round trip is not field-for-field exact. -/
theorem C3_counterexample :
    ((read_log_entries
        (runAppends (WalState.new none)
          [⟨⟨"t1", .INSERT, "k1", none, some Json.null⟩, 3, none⟩]).2.disk).toOption.map
      (List.map LogEntry.new_value)) = some [none] ∧
      (some Json.null : Option Json) ≠ none := by
  exact ⟨rfl, by simp⟩

/-- C3 (amended): after N appends with no failing calls interleaved on a
fresh log, replay returns exactly N entries in append order, and each
entry's `transaction_id`, `operation_type` and `key` equal the arguments
of the corresponding append exactly, while `old_value` / `new_value`
equal the arguments with a top-level `Some(JSON null)` recovered as
`None` (the JSON encoding identifies the two). -/
theorem C3_theorem (reqs : List AppendReq) (h : ∀ r ∈ reqs, r.fault = none) :
    read_log_entries (runAppends (WalState.new none) reqs).2.disk
        = .ok (expectedEntries 0 reqs) ∧
      (expectedEntries 0 reqs).length = reqs.length ∧
      List.Forall₂ fieldsMatch (expectedEntries 0 reqs) reqs := by
  refine ⟨?_, (expectedEntries_forall₂ reqs 0).length_eq,
    expectedEntries_forall₂ reqs 0⟩
  show read_log_entries (runAppends ⟨0, some []⟩ reqs).2.disk = _
  rw [runAppends_noFault reqs 0 [] h]
  simp [read_log_entries, scanLines_expectedLines]

/-- C3 (witness): two concrete fault-free appends (the example of §8 of
the spec) round-trip through replay. -/
theorem C3_witness :
    read_log_entries (runAppends (WalState.new none)
        [⟨⟨"t1", .INSERT, "k1", none, some (.obj [("name", .str "A")])⟩, 1, none⟩,
         ⟨⟨"t1", .UPDATE, "k1", some (.obj [("name", .str "A")]),
            some (.obj [("name", .str "B")])⟩, 2, none⟩]).2.disk
        = .ok (expectedEntries 0
            [⟨⟨"t1", .INSERT, "k1", none, some (.obj [("name", .str "A")])⟩, 1, none⟩,
             ⟨⟨"t1", .UPDATE, "k1", some (.obj [("name", .str "A")]),
                some (.obj [("name", .str "B")])⟩, 2, none⟩]) ∧
      (expectedEntries 0
          [⟨⟨"t1", .INSERT, "k1", none, some (.obj [("name", .str "A")])⟩, 1, none⟩,
           ⟨⟨"t1", .UPDATE, "k1", some (.obj [("name", .str "A")]),
              some (.obj [("name", .str "B")])⟩, 2, none⟩]).length = 2 ∧
      List.Forall₂ fieldsMatch
        (expectedEntries 0
          [⟨⟨"t1", .INSERT, "k1", none, some (.obj [("name", .str "A")])⟩, 1, none⟩,
           ⟨⟨"t1", .UPDATE, "k1", some (.obj [("name", .str "A")]),
              some (.obj [("name", .str "B")])⟩, 2, none⟩])
        [⟨⟨"t1", .INSERT, "k1", none, some (.obj [("name", .str "A")])⟩, 1, none⟩,
         ⟨⟨"t1", .UPDATE, "k1", some (.obj [("name", .str "A")]),
            some (.obj [("name", .str "B")])⟩, 2, none⟩] := by
  refine C3_theorem _ ?_
  intro r hr
  simp only [List.mem_cons] at hr
  rcases hr with rfl | rfl | h
  · rfl
  · rfl
  · cases h

/-- C4: replay of a file interspersing well-formed entry records with any
number of malformed or whitespace-only lines succeeds with no
operation-level error and returns exactly the well-formed entries in
their on-disk order. -/
theorem C4_theorem (lines : List RawLine) (es : List LogEntry)
    (h : Interspersed lines es) :
    read_log_entries (some lines) = .ok es := by
  have : scanLines lines = es := by
    induction h with
    | nil => rfl
    | good hl _ ih => simp [scanLines, hl, ih]
    | bad hl _ ih => simp [scanLines, hl, ih]
  simp [read_log_entries, this]

/-- C4 (witness): a file holding a well-formed record, the malformed line
`invalid entry`, a blank line and a second well-formed record replays to
exactly the two well-formed entries in order, with no error. -/
theorem C4_witness :
    Interspersed
        [.json ((LogEntry.new 1 "txn1" .INSERT "key1" none (some (.str "A")) 2).toJson),
         .garbage "invalid entry", .blank,
         .json ((LogEntry.new 2 "txn2" .UPDATE "key1" (some (.str "A"))
            (some (.str "B")) 4).toJson)]
        [⟨1, "txn1", .INSERT, "key1", none, some (.str "A"), 2⟩,
         ⟨2, "txn2", .UPDATE, "key1", some (.str "A"), some (.str "B"), 4⟩] ∧
      read_log_entries (some
        [.json ((LogEntry.new 1 "txn1" .INSERT "key1" none (some (.str "A")) 2).toJson),
         .garbage "invalid entry", .blank,
         .json ((LogEntry.new 2 "txn2" .UPDATE "key1" (some (.str "A"))
            (some (.str "B")) 4).toJson)])
        = .ok [⟨1, "txn1", .INSERT, "key1", none, some (.str "A"), 2⟩,
               ⟨2, "txn2", .UPDATE, "key1", some (.str "A"), some (.str "B"), 4⟩] := by
  have h : Interspersed
      [.json ((LogEntry.new 1 "txn1" .INSERT "key1" none (some (.str "A")) 2).toJson),
       .garbage "invalid entry", .blank,
       .json ((LogEntry.new 2 "txn2" .UPDATE "key1" (some (.str "A"))
          (some (.str "B")) 4).toJson)]
      [⟨1, "txn1", .INSERT, "key1", none, some (.str "A"), 2⟩,
       ⟨2, "txn2", .UPDATE, "key1", some (.str "A"), some (.str "B"), 4⟩] :=
    .good rfl (.bad rfl (.bad rfl (.good rfl .nil)))
  exact ⟨h, C4_theorem _ _ h⟩

/-- C5 (counterexample): an append on a fresh log that fails at the
durability fence (`sync_all`) returns an error, yet the record was
already fully written: replay returns it as one valid entry, and the
sequence counter moved from 0 to 1 — the WAL's state is not unchanged and
a replay-valid record of the failed entry is left in the log. -/
theorem C5_counterexample :
    (write_log_entry (WalState.new none) ⟨"t9", .DELETE, "k9", none, none⟩ 7
        (some .syncFail)).1.toOption = none ∧
      ((read_log_entries (write_log_entry (WalState.new none)
          ⟨"t9", .DELETE, "k9", none, none⟩ 7 (some .syncFail)).2.disk).toOption.map
        List.length) = some 1 ∧
      (write_log_entry (WalState.new none) ⟨"t9", .DELETE, "k9", none, none⟩ 7
        (some .syncFail)).2.sequence_counter ≠ (WalState.new none).sequence_counter := by
  exact ⟨rfl, rfl, by decide⟩

/-- C5 (amended): every failing append returns an error and keeps the
incremented counter (the consumed sequence number is treated as not
assigned by never being returned); a failure at serialization or file
open leaves the durable log unchanged; a write failure leaves nothing or
a strictly partial torn fragment that replay skips, or — when every
content byte was written and only the newline write failed — the
complete record; a sync failure always leaves the complete record; in
both complete-record cases a later replay returns the failed entry as
valid. -/
theorem C5_theorem (s : WalState) (a : AppendArgs) (now : Rat) (f : Fault) :
    (write_log_entry s a now (some f)).1.toOption = none ∧
    (write_log_entry s a now (some f)).2.sequence_counter = s.sequence_counter + 1 ∧
    (f = .serFail ∨ f = .openFail → (write_log_entry s a now (some f)).2.disk = s.disk) ∧
    (f = .writeFail .nothing ∨ f = .writeFail .fragment →
      read_log_entries (write_log_entry s a now (some f)).2.disk
        = .ok (scanLines (s.disk.getD []))) ∧
    (f = .writeFail .record ∨ f = .syncFail →
      read_log_entries (write_log_entry s a now (some f)).2.disk
        = .ok (scanLines (s.disk.getD []) ++
            [normEntry (LogEntry.new (s.sequence_counter + 1) a.transaction_id
              a.operation_type a.key a.old_value a.new_value now)])) := by
  cases f with
  | serFail =>
    refine ⟨rfl, rfl, fun _ => rfl, ?_, ?_⟩ <;> rintro (h | h) <;> cases h
  | openFail =>
    refine ⟨rfl, rfl, fun _ => rfl, ?_, ?_⟩ <;> rintro (h | h) <;> cases h
  | writeFail left =>
    refine ⟨rfl, rfl, ?_, ?_, ?_⟩
    · rintro (h | h) <;> cases h
    · rintro (h | h) <;> injection h with hh <;> subst hh <;>
        simp [write_log_entry, read_log_entries, scanLines_append, scanLines, lineEntry]
    · rintro (h | h)
      · injection h with hh
        subst hh
        simp [write_log_entry, read_log_entries, scanLines_append, scanLines, lineEntry,
          ofJson_toJson, LogEntry.new]
      · cases h
  | syncFail =>
    refine ⟨rfl, rfl, ?_, ?_, ?_⟩
    · rintro (h | h) <;> cases h
    · rintro (h | h) <;> cases h
    · rintro (h | h)
      · cases h
      · simp [write_log_entry, read_log_entries, scanLines_append, scanLines, lineEntry,
          ofJson_toJson, LogEntry.new]

/-- C5 (witness): the theorem evaluated at an append on a fresh log
whose `writeln!` failed on the newline byte after writing every content
byte: the counter is incremented to 1 and replay returns the record of
the failed append as one valid entry. -/
theorem C5_witness :
    (write_log_entry (WalState.new none) ⟨"t1", .INSERT, "k1", none, none⟩ 0
        (some (.writeFail .record))).2.sequence_counter
        = (WalState.new none).sequence_counter + 1 ∧
      read_log_entries (write_log_entry (WalState.new none)
          ⟨"t1", .INSERT, "k1", none, none⟩ 0 (some (.writeFail .record))).2.disk
        = .ok (scanLines ((WalState.new none).disk.getD []) ++
            [normEntry (LogEntry.new ((WalState.new none).sequence_counter + 1)
              "t1" .INSERT "k1" none none 0)]) := by
  have h := C5_theorem (WalState.new none) ⟨"t1", .INSERT, "k1", none, none⟩ 0
    (.writeFail .record)
  exact ⟨h.2.1, h.2.2.2.2 (Or.inl rfl)⟩

/-- C7 (code evaluation at the failing interleaving): with the counter
shared unsynchronized across two threads as in `test_concurrent_writes`,
the interleaving ⟨thread 0 loads 0, thread 1 loads 0, thread 0 stores 1,
thread 1 stores 1, both append⟩ makes both append calls return sequence
number 1 and leaves two records with the duplicate sequence number 1 on
disk — the claim's "never the same sequence number under every
interleaving" fails. -/
theorem C7_theorem :
    (runSchedule [false, true, false, true, false, true] raceInit).thread0.ret = some 1 ∧
    (runSchedule [false, true, false, true, false, true] raceInit).thread1.ret = some 1 ∧
    (runSchedule [false, true, false, true, false, true] raceInit).fileSeqs = [1, 1] := by
  exact ⟨rfl, rfl, rfl⟩

/-- C8: every successful append writes exactly one newline-terminated
record — the new file is the old file plus one line — and that line is a
JSON object with exactly the fields `sequence_number` (a non-negative
integer), `transaction_id` (string), `operation_type` (one of the literal
strings INSERT / UPDATE / DELETE), `key` (string), `old_value`,
`new_value` (arbitrary JSON or null) and `timestamp` (a number). -/
theorem C8_theorem (s : WalState) (a : AppendArgs) (now : Rat) :
    (write_log_entry s a now none).1 = .ok (s.sequence_counter + 1) ∧
    (write_log_entry s a now none).2.disk =
      some (s.disk.getD [] ++
        [.json ((LogEntry.new (s.sequence_counter + 1) a.transaction_id
            a.operation_type a.key a.old_value a.new_value now).toJson)]) ∧
    recordWellFormed ((LogEntry.new (s.sequence_counter + 1) a.transaction_id
        a.operation_type a.key a.old_value a.new_value now).toJson) = true := by
  refine ⟨rfl, rfl, ?_⟩
  cases a.operation_type <;>
    · simp [LogEntry.new, LogEntry.toJson, OperationType.toJson, recordWellFormed]
      constructor
      · rw [← Nat.cast_one, ← Nat.cast_add]
        exact Rat.den_natCast _
      · positivity

/-- C9 (counterexample): an append whose `key` argument is the empty
string succeeds and the stored entry's `key` field is the empty string —
the WAL performs no validation, so the non-emptiness invariant fails. -/
theorem C9_counterexample :
    (write_log_entry (WalState.new none) ⟨"t1", .INSERT, "", none, none⟩ 0 none).1
        = .ok 1 ∧
      ((read_log_entries (write_log_entry (WalState.new none)
          ⟨"t1", .INSERT, "", none, none⟩ 0 none).2.disk).toOption.map
        (List.map LogEntry.key)) = some [""] := by
  exact ⟨rfl, rfl⟩

/-- C9 (amended): the WAL stores each entry's key exactly as supplied and
validates nothing, so every stored entry has a non-empty key provided
every append call supplies a non-empty key: after any fault-free trace
whose calls all pass non-empty keys, every replayed entry's key is
non-empty. -/
theorem C9_theorem (reqs : List AppendReq) (hf : ∀ r ∈ reqs, r.fault = none)
    (hk : ∀ r ∈ reqs, r.args.key ≠ "") :
    read_log_entries (runAppends (WalState.new none) reqs).2.disk
        = .ok (expectedEntries 0 reqs) ∧
      ∀ e ∈ expectedEntries 0 reqs, e.key ≠ "" := by
  constructor
  · show read_log_entries (runAppends ⟨0, some []⟩ reqs).2.disk = _
    rw [runAppends_noFault reqs 0 [] hf]
    simp [read_log_entries, scanLines_expectedLines]
  · intro e he
    obtain ⟨r, hr, hkey⟩ := expectedEntries_mem_key reqs 0 e he
    rw [hkey]
    exact hk r hr

/-- C9 (witness): the theorem evaluated on one append with the non-empty
key `key1`. -/
theorem C9_witness :
    read_log_entries (runAppends (WalState.new none)
        [⟨⟨"txn1", .INSERT, "key1", none, none⟩, 1, none⟩]).2.disk
        = .ok (expectedEntries 0 [⟨⟨"txn1", .INSERT, "key1", none, none⟩, 1, none⟩]) ∧
      ∀ e ∈ expectedEntries 0 [⟨⟨"txn1", .INSERT, "key1", none, none⟩, 1, none⟩],
        e.key ≠ "" := by
  refine C9_theorem _ ?_ ?_ <;>
    · intro r hr
      simp only [List.mem_cons] at hr
      rcases hr with rfl | h
      · simp
      · cases h
